import Mathlib

/-!
# Verification of the COLREGS geometry core (`colregs_core.geometry.bearings`)

Shallow embedding of the pure geometry utilities of the repository over the
real numbers (floating-point arithmetic idealized as exact real arithmetic).
Python's float modulo `x % y` (sign of the divisor) is embedded as
`x - y * ⌊x / y⌋`, and `np.arctan2 y x` as `Complex.arg (x + y·I)`, which
agrees with the IEEE atan2 convention on all real (non-signed-zero) inputs.
-/

open Real Complex

noncomputable section

/-- Python float modulo: `x % y = x - y * ⌊x / y⌋` (result has the sign of
the divisor `y`, matching CPython float `%`). -/
def pymod (x y : ℝ) : ℝ := x - y * ⌊x / y⌋

/-- Embedding of `np.arctan2 y x`: the angle of the point `(x, y)`, in `(-π, π]`.
Embedded as the argument of the complex number `x + y·I`. -/
def arctan2 (y x : ℝ) : ℝ := Complex.arg (x + y * Complex.I)

/-- Embedding of `np.degrees`: radians to degrees. -/
def degrees (r : ℝ) : ℝ := r * (180 / π)

/-- Embedding of `np.radians`: degrees to radians. -/
def radians (d : ℝ) : ℝ := d * (π / 180)

/-- Function `normalize_angle` from `bearings.py`: `((angle + 180) % 360) - 180`. -/
def normalize_angle (angle : ℝ) : ℝ := pymod (angle + 180) 360 - 180

/-- Function `normalize_angle_360` from `bearings.py`: `angle % 360`. -/
def normalize_angle_360 (angle : ℝ) : ℝ := pymod angle 360

/-- Function `calculate_relative_bearing` from `bearings.py`. -/
def calculate_relative_bearing (os_position : ℝ × ℝ) (os_heading : ℝ)
    (ts_position : ℝ × ℝ) : ℝ :=
  let dx := ts_position.1 - os_position.1
  let dy := ts_position.2 - os_position.2
  let absolute_bearing := degrees (arctan2 dx dy)
  let relative_bearing := absolute_bearing - os_heading
  normalize_angle_360 relative_bearing

/-- Function `calculate_distance` from `bearings.py`. -/
def calculate_distance (pos1 pos2 : ℝ × ℝ) : ℝ :=
  let dx := pos2.1 - pos1.1
  let dy := pos2.2 - pos1.2
  Real.sqrt (dx ^ 2 + dy ^ 2)

/-- Function `calculate_relative_velocity` from `bearings.py`. -/
def calculate_relative_velocity (os_velocity ts_velocity : ℝ × ℝ) : ℝ × ℝ :=
  (ts_velocity.1 - os_velocity.1, ts_velocity.2 - os_velocity.2)

/-- Function `heading_to_velocity` from `bearings.py`. -/
def heading_to_velocity (heading speed : ℝ) : ℝ × ℝ :=
  let heading_rad := radians heading
  let vx := speed * Real.sin heading_rad
  let vy := speed * Real.cos heading_rad
  (vx, vy)

/-- Function `velocity_to_heading_speed` from `bearings.py`. -/
def velocity_to_heading_speed (velocity : ℝ × ℝ) : ℝ × ℝ :=
  let vx := velocity.1
  let vy := velocity.2
  let speed := Real.sqrt (vx ^ 2 + vy ^ 2)
  let heading := degrees (arctan2 vx vy)
  (normalize_angle_360 heading, speed)

/-- Function `calculate_aspect_angle` from `bearings.py`. -/
def calculate_aspect_angle (ts_heading : ℝ) (os_position ts_position : ℝ × ℝ) : ℝ :=
  let dx := os_position.1 - ts_position.1
  let dy := os_position.2 - ts_position.2
  let absolute_bearing := degrees (arctan2 dx dy)
  let aspect := absolute_bearing - ts_heading
  normalize_angle_360 aspect

/-- Function `calculate_bearing_rate` from `bearings.py`. -/
def calculate_bearing_rate (os_position os_velocity ts_position ts_velocity :
    ℝ × ℝ) : ℝ :=
  let dx := ts_position.1 - os_position.1
  let dy := ts_position.2 - os_position.2
  let range_sq := dx ^ 2 + dy ^ 2
  if range_sq < 1e-6 then 0
  else
    let dvx := ts_velocity.1 - os_velocity.1
    let dvy := ts_velocity.2 - os_velocity.2
    let cross_product := dx * dvy - dy * dvx
    let bearing_rate_rad := cross_product / range_sq
    degrees bearing_rate_rad

/-- The 2-D (z-component of the) cross product, written from the spec's
formula `r × v_rel` for the bearing rate. -/
def crossZ (a b : ℝ × ℝ) : ℝ := a.1 * b.2 - a.2 * b.1

/-- Modelled from the spec: the `ClosestApproach` module (`calculate_cpa_tcpa`)
is not among the files under `src/`; only its tests call it. Per §4.2:
`r = tsPos − osPos`, `v = tsVel − osVel`; if `|v|² < ε` then
`tcpa = +∞`, `dcpa = |r|`; else `tcpa = −(r·v)/|v|²`, `dcpa = |r + v·tcpa|`,
with no clamping of a negative `tcpa`. `+∞` (Python `float('inf')`) is
modelled as `⊤ : EReal`; `ε` is taken as the code base's `1e-6`. -/
def calculate_cpa_tcpa (os_position os_velocity ts_position ts_velocity :
    ℝ × ℝ) : ℝ × EReal :=
  let rx := ts_position.1 - os_position.1
  let ry := ts_position.2 - os_position.2
  let vx := ts_velocity.1 - os_velocity.1
  let vy := ts_velocity.2 - os_velocity.2
  let v_sq := vx ^ 2 + vy ^ 2
  if v_sq < 1e-6 then
    (Real.sqrt (rx ^ 2 + ry ^ 2), (⊤ : EReal))
  else
    let tcpa := -((rx * vx + ry * vy) / v_sq)
    let cx := rx + vx * tcpa
    let cy := ry + vy * tcpa
    (Real.sqrt (cx ^ 2 + cy ^ 2), (tcpa : EReal))

end

/-! ## Helper lemmas about `pymod` -/

/-- The value `pymod x y` lies in `[0, y)` for a positive modulus. -/
lemma pymod_mem (x : ℝ) {y : ℝ} (hy : 0 < y) : 0 ≤ pymod x y ∧ pymod x y < y := by
  unfold pymod
  have hxy : y * (x / y) = x := by field_simp
  have h1 : y * ((⌊x / y⌋ : ℤ) : ℝ) ≤ y * (x / y) :=
    mul_le_mul_of_nonneg_left (Int.floor_le (x / y)) hy.le
  have h2 : y * (x / y) < y * (((⌊x / y⌋ : ℤ) : ℝ) + 1) :=
    mul_lt_mul_of_pos_left (Int.lt_floor_add_one (x / y)) hy
  constructor
  · linarith
  · nlinarith

/-- Function `pymod` is the identity on `[0, y)`. -/
lemma pymod_eq_self {x y : ℝ} (hx : 0 ≤ x) (hxy : x < y) : pymod x y = x := by
  have hy : 0 < y := lt_of_le_of_lt hx hxy
  have hfloor : ⌊x / y⌋ = 0 := by
    rw [Int.floor_eq_zero_iff]
    constructor
    · exact div_nonneg hx hy.le
    · rw [div_lt_one hy]; exact hxy
  unfold pymod
  rw [hfloor]
  simp

/-- Subtracting the modulus does not change `pymod`. -/
lemma pymod_sub_self (x y : ℝ) (hy : y ≠ 0) : pymod (x - y) y = pymod x y := by
  unfold pymod
  have h1 : (x - y) / y = x / y - 1 := by field_simp
  rw [h1]
  have h2 : ⌊x / y - 1⌋ = ⌊x / y⌋ - 1 := by
    simp
  rw [h2]
  push_cast
  ring

/-- Function `normalize_angle_360` always lies in `[0, 360)`. -/
lemma normalize_angle_360_mem (a : ℝ) :
    0 ≤ normalize_angle_360 a ∧ normalize_angle_360 a < 360 := by
  unfold normalize_angle_360
  exact pymod_mem a (by norm_num)

/-- Function `normalize_angle_360` is the identity on `[0, 360)`. -/
lemma normalize_angle_360_eq_self {a : ℝ} (h0 : 0 ≤ a) (h1 : a < 360) :
    normalize_angle_360 a = a :=
  pymod_eq_self h0 h1

/-- Function `normalize_angle` always lies in `[-180, 180)`. -/
lemma normalize_angle_mem (a : ℝ) :
    -180 ≤ normalize_angle a ∧ normalize_angle a < 180 := by
  unfold normalize_angle
  have h := pymod_mem (a + 180) (show (0:ℝ) < 360 by norm_num)
  constructor <;> linarith [h.1, h.2]

/-- Subtracting 360 does not change `normalize_angle_360`. -/
lemma normalize_angle_360_sub_360 (a : ℝ) :
    normalize_angle_360 (a - 360) = normalize_angle_360 a :=
  pymod_sub_self a 360 (by norm_num)

/-- Degrees-to-radians conversion inverts radians-to-degrees. -/
lemma degrees_radians (d : ℝ) : degrees (radians d) = d := by
  unfold degrees radians
  have hπ : (π : ℝ) ≠ 0 := Real.pi_ne_zero
  field_simp

/-! ## Helper lemmas about `arctan2` -/

/-- Function `arctan2` recovers the angle of a positively scaled unit vector,
for angles in the principal range `(-π, π]`. -/
lemma arctan2_smul_cos_sin {s θ : ℝ} (hs : 0 < s) (hθ : θ ∈ Set.Ioc (-π) π) :
    arctan2 (s * Real.sin θ) (s * Real.cos θ) = θ := by
  unfold arctan2
  have key : ((s * Real.cos θ : ℝ) : ℂ) + ((s * Real.sin θ : ℝ) : ℂ) * Complex.I
      = (s : ℂ) * (Complex.cos (θ : ℂ) + Complex.sin (θ : ℂ) * Complex.I) := by
    rw [Complex.ofReal_mul, Complex.ofReal_mul, Complex.ofReal_cos, Complex.ofReal_sin]
    ring
  rw [key, Complex.arg_real_mul _ hs]
  exact Complex.arg_cos_add_sin_mul_I hθ

/-- Recovering a heading in `[0, 360)` from its velocity vector at positive
speed: the composed `arctan2`/`degrees`/`normalize_angle_360` pipeline of
`velocity_to_heading_speed` returns the heading exactly. -/
lemma heading_roundtrip {h : ℝ} (h0 : 0 ≤ h) (h1 : h < 360) {s : ℝ} (hs : 0 < s) :
    normalize_angle_360 (degrees (arctan2 (s * Real.sin (radians h))
      (s * Real.cos (radians h)))) = h := by
  have hπ : (0:ℝ) < π := Real.pi_pos
  have hπ180 : (0:ℝ) < π / 180 := by positivity
  have hfact : (180:ℝ) * (π / 180) = π := by ring
  by_cases hc : h ≤ 180
  · have hmem : radians h ∈ Set.Ioc (-π) π := by
      refine Set.mem_Ioc.mpr ⟨?_, ?_⟩
      · unfold radians
        have := mul_nonneg h0 hπ180.le
        linarith
      · unfold radians
        have := mul_le_mul_of_nonneg_right hc hπ180.le
        linarith
    rw [arctan2_smul_cos_sin hs hmem, degrees_radians]
    exact normalize_angle_360_eq_self h0 h1
  · push_neg at hc
    rw [show s * Real.sin (radians h) = s * Real.sin (radians h - 2 * π) from by
        rw [Real.sin_sub_two_pi],
      show s * Real.cos (radians h) = s * Real.cos (radians h - 2 * π) from by
        rw [Real.cos_sub_two_pi]]
    have hmem : radians h - 2 * π ∈ Set.Ioc (-π) π := by
      refine Set.mem_Ioc.mpr ⟨?_, ?_⟩
      · unfold radians
        have := mul_lt_mul_of_pos_right hc hπ180
        linarith
      · unfold radians
        have := mul_le_mul_of_nonneg_right h1.le hπ180.le
        nlinarith
    rw [arctan2_smul_cos_sin hs hmem]
    have hdeg : degrees (radians h - 2 * π) = h - 360 := by
      unfold degrees radians
      have hπ' : (π : ℝ) ≠ 0 := Real.pi_ne_zero
      field_simp
      ring
    rw [hdeg, normalize_angle_360_sub_360]
    exact normalize_angle_360_eq_self h0 h1

/-! ## Claim theorems -/

/-- C2: for every real angle `a`, `normalize_angle a` lies in `[-180, 180)`,
`normalize_angle_360 a` lies in `[0, 360)`, and both functions are
idempotent. -/
theorem normalize_angle_range_idempotent (a : ℝ) :
    (-180 ≤ normalize_angle a ∧ normalize_angle a < 180) ∧
    (0 ≤ normalize_angle_360 a ∧ normalize_angle_360 a < 360) ∧
    normalize_angle (normalize_angle a) = normalize_angle a ∧
    normalize_angle_360 (normalize_angle_360 a) = normalize_angle_360 a := by
  refine ⟨normalize_angle_mem a, normalize_angle_360_mem a, ?_, ?_⟩
  · have h := normalize_angle_mem a
    show pymod (normalize_angle a + 180) 360 - 180 = normalize_angle a
    rw [pymod_eq_self (by linarith [h.1]) (by linarith [h.2])]
    ring
  · have h := normalize_angle_360_mem a
    exact normalize_angle_360_eq_self h.1 h.2

/-- C3: `calculate_relative_bearing` and `calculate_aspect_angle` always
return a value in `[0, 360)`, and `calculate_distance` is nonnegative, for
all real positions and headings. -/
theorem geometry_output_invariants (os_position ts_position p1 p2 : ℝ × ℝ)
    (os_heading ts_heading : ℝ) :
    (0 ≤ calculate_relative_bearing os_position os_heading ts_position ∧
      calculate_relative_bearing os_position os_heading ts_position < 360) ∧
    (0 ≤ calculate_aspect_angle ts_heading os_position ts_position ∧
      calculate_aspect_angle ts_heading os_position ts_position < 360) ∧
    0 ≤ calculate_distance p1 p2 :=
  ⟨normalize_angle_360_mem _, normalize_angle_360_mem _, Real.sqrt_nonneg _⟩

/-- C8: `calculate_aspect_angle h p q` is exactly the relative-bearing
computation with the two ships exchanged, `calculate_relative_bearing q h p`:
the same `arctan2` of the reversed displacement minus the heading,
normalized to `[0, 360)`. -/
theorem aspect_eq_swapped_relative_bearing (h : ℝ) (p q : ℝ × ℝ) :
    calculate_aspect_angle h p q = calculate_relative_bearing q h p := rfl

/-- C9: `calculate_bearing_rate` is invariant under exchanging the two
ships, because negating both the relative position and the relative velocity
leaves the 2-D cross product and the squared range unchanged. -/
theorem bearing_rate_swap_symm (op ov tp tv : ℝ × ℝ) :
    calculate_bearing_rate op ov tp tv = calculate_bearing_rate tp tv op ov := by
  simp only [calculate_bearing_rate]
  rw [show (op.1 - tp.1) ^ 2 + (op.2 - tp.2) ^ 2
      = (tp.1 - op.1) ^ 2 + (tp.2 - op.2) ^ 2 from by ring,
    show (op.1 - tp.1) * (ov.2 - tv.2) - (op.2 - tp.2) * (ov.1 - tv.1)
      = (tp.1 - op.1) * (tv.2 - ov.2) - (tp.2 - op.2) * (tv.1 - ov.1) from by ring]

/-- C10: `calculate_distance` is symmetric in its two arguments. -/
theorem calculate_distance_symm (p1 p2 : ℝ × ℝ) :
    calculate_distance p1 p2 = calculate_distance p2 p1 := by
  simp only [calculate_distance]
  rw [show (p1.1 - p2.1) ^ 2 + (p1.2 - p2.2) ^ 2
      = (p2.1 - p1.1) ^ 2 + (p2.2 - p1.2) ^ 2 from by ring]

/-- C4: for every heading `h ∈ [0, 360)` and speed `s > 0`,
`velocity_to_heading_speed (heading_to_velocity h s) = (h, s)` — the two
conversions are mutually inverse on this domain (exactly, in real
arithmetic, hence in particular within numerical tolerance). -/
theorem velocity_heading_roundtrip (h s : ℝ) (h0 : 0 ≤ h) (h1 : h < 360)
    (hs : 0 < s) :
    velocity_to_heading_speed (heading_to_velocity h s) = (h, s) := by
  show (normalize_angle_360 (degrees (arctan2 (s * Real.sin (radians h))
      (s * Real.cos (radians h)))),
    Real.sqrt ((s * Real.sin (radians h)) ^ 2 + (s * Real.cos (radians h)) ^ 2))
    = (h, s)
  rw [Prod.mk.injEq]
  refine ⟨heading_roundtrip h0 h1 hs, ?_⟩
  rw [show (s * Real.sin (radians h)) ^ 2 + (s * Real.cos (radians h)) ^ 2
      = s ^ 2 from by
    rw [mul_pow, mul_pow, ← mul_add, Real.sin_sq_add_cos_sq, mul_one]]
  exact Real.sqrt_sq hs.le

/-- Witness for C4 at the concrete input `h = 90`, `s = 2`. -/
theorem velocity_heading_roundtrip_witness :
    velocity_to_heading_speed (heading_to_velocity 90 2) = (90, 2) :=
  velocity_heading_roundtrip 90 2 (by norm_num) (by norm_num) (by norm_num)

/-- C5: `calculate_bearing_rate` returns the 2-D cross product of relative
position and relative velocity divided by the squared range, converted from
rad/s to deg/s; when the squared range is below `1e-6` it returns exactly 0
instead of dividing, so the function is total and never divides by a
near-zero range. -/
theorem bearing_rate_formula (op ov tp tv : ℝ × ℝ) :
    ((tp.1 - op.1) ^ 2 + (tp.2 - op.2) ^ 2 < 1e-6 →
      calculate_bearing_rate op ov tp tv = 0) ∧
    (¬ ((tp.1 - op.1) ^ 2 + (tp.2 - op.2) ^ 2 < 1e-6) →
      calculate_bearing_rate op ov tp tv =
        degrees (crossZ (tp.1 - op.1, tp.2 - op.2)
          (calculate_relative_velocity ov tv) /
          ((tp.1 - op.1) ^ 2 + (tp.2 - op.2) ^ 2))) := by
  simp only [calculate_bearing_rate, crossZ, calculate_relative_velocity]
  constructor
  · intro h
    rw [if_pos h]
  · intro h
    rw [if_neg h]

/-- Witness for C5 at coincident ships: the squared range is 0, below the
threshold, and the result is the sentinel 0. -/
theorem bearing_rate_formula_witness :
    calculate_bearing_rate (0, 0) (0, 0) (0, 0) (1, 0) = 0 :=
  (bearing_rate_formula (0, 0) (0, 0) (0, 0) (1, 0)).1 (by norm_num)

/-- C6 counterexample: a near-zero but nonzero velocity vector does not get
heading 0: `velocity_to_heading_speed (0, -10⁻⁹)` returns heading 180
(and speed 10⁻⁹), because the code applies `arctan2` with no epsilon guard;
only the exactly-zero vector yields heading 0. -/
theorem near_zero_velocity_heading_not_zero :
    velocity_to_heading_speed (0, -(1/1000000000)) = (180, 1/1000000000) ∧
    (180 : ℝ) ≠ 0 := by
  refine ⟨?_, by norm_num⟩
  show (normalize_angle_360 (degrees (arctan2 0 (-(1/1000000000)))),
    Real.sqrt ((0:ℝ) ^ 2 + (-(1/1000000000)) ^ 2)) = (180, 1/1000000000)
  have harg : arctan2 0 (-(1/1000000000)) = π := by
    unfold arctan2
    rw [Complex.ofReal_zero, zero_mul, add_zero]
    exact Complex.arg_ofReal_of_neg (by norm_num)
  have hdeg : degrees π = 180 := by
    unfold degrees
    have hπ : (π : ℝ) ≠ 0 := Real.pi_ne_zero
    field_simp
  rw [Prod.mk.injEq]
  constructor
  · rw [harg, hdeg]
    exact normalize_angle_360_eq_self (by norm_num) (by norm_num)
  · rw [show (0:ℝ) ^ 2 + (-(1/1000000000)) ^ 2 = (1/1000000000) ^ 2 from by
      norm_num]
    exact Real.sqrt_sq (by norm_num)

/-- C6 (amended): `heading_to_velocity h 0` is the zero vector for every
heading `h`, and `velocity_to_heading_speed` applied to the exactly-zero
velocity vector returns heading 0 (with speed 0); both are ordinary return
values, never errors. -/
theorem zero_speed_conventions :
    (∀ h : ℝ, heading_to_velocity h 0 = (0, 0)) ∧
    velocity_to_heading_speed (0, 0) = (0, 0) := by
  constructor
  · intro h
    simp [heading_to_velocity]
  · show (normalize_angle_360 (degrees (arctan2 0 0)),
      Real.sqrt ((0:ℝ) ^ 2 + (0:ℝ) ^ 2)) = (0, 0)
    have harg : arctan2 0 0 = 0 := by
      unfold arctan2
      rw [Complex.ofReal_zero, zero_mul, add_zero, Complex.arg_zero]
    rw [harg, Prod.mk.injEq]
    constructor
    · rw [show degrees 0 = 0 from by unfold degrees; ring]
      exact normalize_angle_360_eq_self le_rfl (by norm_num)
    · rw [show (0:ℝ) ^ 2 + (0:ℝ) ^ 2 = 0 from by norm_num]
      exact Real.sqrt_zero

/-- C7 counterexample: a negative speed is not rejected: the call
`heading_to_velocity 0 (-5)` returns the ordinary value `(0, -5)` instead of
failing with an `InvalidInput` error (the source performs no input
validation and has no error path). -/
theorem negative_speed_returns_value :
    heading_to_velocity 0 (-5) = (0, -5) := by
  simp [heading_to_velocity, radians]

/-- C7 (amended): the geometry functions perform no input validation and
never raise: `heading_to_velocity` is a total function, and a negative speed
simply produces the negated velocity vector. -/
theorem heading_to_velocity_no_validation (h s : ℝ) :
    heading_to_velocity h (-s) =
      (-(heading_to_velocity h s).1, -(heading_to_velocity h s).2) := by
  simp [heading_to_velocity, neg_mul]

/-- Evaluation of `heading_to_velocity` at heading 0 (due North), used by the
parallel-navigation test scenario. -/
lemma heading_to_velocity_north : heading_to_velocity 0 10 = (0, 10) := by
  simp [heading_to_velocity, radians]

/-- C1: `calculate_cpa_tcpa` returns `tcpa = +∞` and `dcpa = |r|` (the
current separation, `calculate_distance osPos tsPos`) when the squared
relative speed `|v|²` is below `ε = 1e-6`, and otherwise returns
`tcpa = −(r·v)/|v|²` (not clamped, so it may be negative) and
`dcpa = |r + v·tcpa|`, where `r = tsPos − osPos` and `v = tsVel − osVel`. -/
theorem cpa_tcpa_spec (op ov tp tv : ℝ × ℝ) :
    ((tv.1 - ov.1) ^ 2 + (tv.2 - ov.2) ^ 2 < 1e-6 →
      calculate_cpa_tcpa op ov tp tv = (calculate_distance op tp, (⊤ : EReal))) ∧
    (¬ ((tv.1 - ov.1) ^ 2 + (tv.2 - ov.2) ^ 2 < 1e-6) →
      ∀ t : ℝ,
        t = -(((tp.1 - op.1) * (tv.1 - ov.1) + (tp.2 - op.2) * (tv.2 - ov.2)) /
          ((tv.1 - ov.1) ^ 2 + (tv.2 - ov.2) ^ 2)) →
        calculate_cpa_tcpa op ov tp tv =
          (Real.sqrt ((tp.1 - op.1 + (tv.1 - ov.1) * t) ^ 2 +
            (tp.2 - op.2 + (tv.2 - ov.2) * t) ^ 2), (t : EReal))) := by
  simp only [calculate_cpa_tcpa, calculate_distance]
  constructor
  · intro h
    rw [if_pos h]
  · intro h t ht
    rw [if_neg h, ht]

/-- Witness for C1 on the parallel same-course/same-speed test scenario:
OS at (0,0) and TS at (500,0), both heading 0° at 10 m/s, give
`dcpa = 500` m and `tcpa = +∞`. -/
theorem cpa_tcpa_spec_witness :
    calculate_cpa_tcpa (0, 0) (heading_to_velocity 0 10) (500, 0)
      (heading_to_velocity 0 10) = (500, (⊤ : EReal)) := by
  rw [(cpa_tcpa_spec (0, 0) (heading_to_velocity 0 10) (500, 0)
      (heading_to_velocity 0 10)).1 (by rw [heading_to_velocity_north]; norm_num)]
  rw [Prod.mk.injEq]
  refine ⟨?_, rfl⟩
  show Real.sqrt (((500:ℝ) - 0) ^ 2 + ((0:ℝ) - 0) ^ 2) = 500
  rw [show ((500:ℝ) - 0) ^ 2 + ((0:ℝ) - 0) ^ 2 = 500 ^ 2 from by norm_num]
  exact Real.sqrt_sq (by norm_num)
